import Mathlib

/-!
# Verification of the `data2lemma2vec` preprocessing notebook

Shallow embedding of `src/exploration/data2lemma2vec.ipynb` (allay-ds):
the notebook loads a table of tweets, runs three spaCy pipelines over the
text column to produce per-document lemma lists and document vectors, and
exports the results to CSV files named with a single per-run UTC timestamp.

The spaCy pipelines themselves are external and opaque; they are modelled
as functions `String → SpacyDoc` returning the parsed tokens and the
document vector.  Everything the notebook itself computes — the token
filter, the batched orchestration, the DataFrame assembly, the CSV
round-trip and the timestamped filenames — is embedded below.
-/

set_option autoImplicit false

namespace Data2Lemma2Vec

/-- A spaCy token, restricted to the attributes the notebook's filter
consumes: `token.text`, `token.lemma_`, `token.is_stop`, `token.is_punct`,
`token.pos_`. -/
structure Token where
  text : String
  lemma_ : String
  is_stop : Bool
  is_punct : Bool
  pos_ : String
deriving DecidableEq, Repr

/-- A parsed document as returned by a spaCy pipeline: an ordered token
sequence and a document-level vector.  The vector's numeric content is
opaque to the notebook, so its entries are modelled as integers. -/
structure SpacyDoc where
  tokens : List Token
  vector : List Int
deriving DecidableEq, Repr

/-- `STOP_WORDS = []` — the notebook's additional tokens to ignore,
empty by default. -/
def STOP_WORDS : List String := []

/-- `is_empty_pattern = re.compile(r'^\s*$')` — a match succeeds exactly
when the whole string is whitespace (the empty string included). -/
def is_empty_match (s : String) : Bool :=
  s.data.all Char.isWhitespace

/-- The condition of the `if` inside `make_lemmas`, as a predicate of the
stop-list and the token. -/
def keep_token (stop_words : List String) (t : Token) : Bool :=
  !t.is_stop
    && !t.is_punct
    && (t.pos_ != "PRON")
    && !is_empty_match t.text
    && decide (t.lemma_.length > 2)
    && !stop_words.contains t.lemma_

/-- The inner loop of `make_lemmas`: starting from `doc_lemmas = []`,
append `token.lemma_` for each token satisfying the filter. -/
def lemmas_of_doc (tokens : List Token) : List String :=
  tokens.foldl
    (fun doc_lemmas token =>
      if keep_token STOP_WORDS token then doc_lemmas ++ [token.lemma_]
      else doc_lemmas)
    []

/-- Split a list into consecutive batches of `batch_size` elements
(the last batch may be shorter).  Fuel-driven recursion on the length. -/
def chunksAux {α : Type} (batch_size : Nat) : Nat → List α → List (List α)
  | _, [] => []
  | 0, _ :: _ => []
  | fuel + 1, x :: xs =>
      (x :: xs).take batch_size :: chunksAux batch_size fuel ((x :: xs).drop batch_size)

/-- Split a list into consecutive batches of `batch_size` elements. -/
def chunks {α : Type} (batch_size : Nat) (l : List α) : List (List α) :=
  chunksAux batch_size l.length l

/-- Modelled from the spec: `nlp.pipe(docs, batch_size=...)` — the external
pipeline capability applied over a sequence of texts in fixed-size batches,
yielding parsed documents in input order.  (spaCy's `pipe` is external to
the repository; the spec describes it as batched application that must not
alter or reorder output.) -/
def nlp_pipe (nlp : String → SpacyDoc) (batch_size : Nat) (docs : List String) :
    List SpacyDoc :=
  ((chunks batch_size docs).map (fun batch => batch.map nlp)).flatten

/-- Follows the spec's words: unbatched, per-document processing — apply
the pipeline to each document independently, in order. -/
def unbatched_pipe (nlp : String → SpacyDoc) (docs : List String) : List SpacyDoc :=
  docs.map nlp

/-- `make_lemmas(nlp, docs)`: run the pipeline over the docs in batches of
500 and collect the filtered lemma list of each document, in order. -/
def make_lemmas (nlp : String → SpacyDoc) (docs : List String) : List (List String) :=
  (nlp_pipe nlp 500 docs).map (fun doc => lemmas_of_doc doc.tokens)

/-- `make_vectors(nlp, docs)`: run the pipeline over the docs in batches of
500 and collect `doc.vector` for each document, in order. -/
def make_vectors (nlp : String → SpacyDoc) (docs : List String) : List (List Int) :=
  (nlp_pipe nlp 500 docs).map SpacyDoc.vector

section PipeLemmas

variable {α β : Type}

theorem chunksAux_flatten (batch_size : Nat) (hbs : 0 < batch_size) :
    ∀ (fuel : Nat) (l : List α), l.length ≤ fuel →
      (chunksAux batch_size fuel l).flatten = l := by
  intro fuel
  induction fuel with
  | zero =>
      intro l hl
      match l, hl with
      | [], _ => rfl
  | succ n ih =>
      intro l hl
      match l with
      | [] => rfl
      | x :: xs =>
          have hdrop : ((x :: xs).drop batch_size).length ≤ n := by
            rw [List.length_drop, List.length_cons]
            rw [List.length_cons] at hl
            omega
          simp only [chunksAux, List.flatten_cons, ih _ hdrop, List.take_append_drop]

theorem chunks_flatten (batch_size : Nat) (hbs : 0 < batch_size) (l : List α) :
    (chunks batch_size l).flatten = l :=
  chunksAux_flatten batch_size hbs l.length l (Nat.le_refl _)

theorem nlp_pipe_eq_map (nlp : String → SpacyDoc) (docs : List String) :
    nlp_pipe nlp 500 docs = docs.map nlp := by
  unfold nlp_pipe
  rw [← List.map_flatten, chunks_flatten 500 (by omega)]

theorem make_lemmas_eq_map (nlp : String → SpacyDoc) (docs : List String) :
    make_lemmas nlp docs = docs.map (fun s => lemmas_of_doc (nlp s).tokens) := by
  unfold make_lemmas
  rw [nlp_pipe_eq_map, List.map_map]
  rfl

theorem make_vectors_eq_map (nlp : String → SpacyDoc) (docs : List String) :
    make_vectors nlp docs = docs.map (fun s => (nlp s).vector) := by
  unfold make_vectors
  rw [nlp_pipe_eq_map, List.map_map]
  rfl

end PipeLemmas

theorem lemmas_of_doc_eq_filter_map (tokens : List Token) :
    lemmas_of_doc tokens =
      (tokens.filter (keep_token STOP_WORDS)).map Token.lemma_ := by
  suffices h : ∀ (acc : List String),
      tokens.foldl
        (fun doc_lemmas token =>
          if keep_token STOP_WORDS token then doc_lemmas ++ [token.lemma_]
          else doc_lemmas) acc =
      acc ++ (tokens.filter (keep_token STOP_WORDS)).map Token.lemma_ by
    simpa using h []
  induction tokens with
  | nil => intro acc; simp
  | cons t ts ih =>
      intro acc
      by_cases hk : keep_token STOP_WORDS t
      · simp [List.foldl_cons, List.filter_cons, hk, ih]
      · simp [List.foldl_cons, List.filter_cons, hk, ih]

/-! ## CSV cell serialization and the round-trip through the lemma file

`lemmas.to_csv(...)` followed by `pd.read_csv(...)` turns each list-valued
cell into its Python string form; the string is then what `nlp.pipe`
receives during vectorization. -/

/-- Modelled from the spec: pandas serializes a list-of-strings cell as the
Python string form of the list — the items quoted and comma-separated
inside square brackets.  (The serialization itself happens inside pandas,
outside the repository; the spec calls it the type coercion of the lemma
list to a plain string.) -/
def pyListStr (xs : List String) : String :=
  "[" ++ String.intercalate ", " (xs.map (fun s => "\x27" ++ s ++ "\x27")) ++ "]"

/-- Does a CSV field need quoting (it contains a comma, a double quote or a
newline)? -/
def needs_quoting (s : String) : Bool :=
  s.data.any (fun c => c = ',' || c = '"' || c = '\n')

/-- Double every double-quote character (CSV escaping inside a quoted
field). -/
def csv_escape : List Char → List Char
  | [] => []
  | c :: cs =>
      if c = '"' then '"' :: '"' :: csv_escape cs else c :: csv_escape cs

/-- Modelled from the spec: writing one field with `to_csv` — quote and
escape the field when it contains a delimiter, quote or newline, else write
it verbatim. -/
def to_csv_field (s : String) : String :=
  if needs_quoting s then String.mk ('"' :: (csv_escape s.data ++ ['"'])) else s

/-- Collapse doubled double-quote characters (CSV unescaping). -/
def csv_unescape : List Char → List Char
  | [] => []
  | [c] => [c]
  | c1 :: c2 :: cs =>
      if c1 = '"' && c2 = '"' then '"' :: csv_unescape cs
      else c1 :: csv_unescape (c2 :: cs)

/-- Modelled from the spec: reading one field back with `read_csv` — strip
the surrounding quotes and unescape when the field was quoted. -/
def read_csv_field (s : String) : String :=
  match s.data with
  | '"' :: rest => String.mk (csv_unescape rest.dropLast)
  | _ => s

/-- One lemma-list cell as it comes back from the CSV round-trip: the cell
is serialized to its Python string form, written as a CSV field and read
back. -/
def reload_cell (cell : List String) : String :=
  read_csv_field (to_csv_field (pyListStr cell))

/-! ## DataFrame assembly -/

/-- One row of the source table `data/combined_deduped.csv`: the `tweet`
text and the boolean `inappropriate` label. -/
structure InputRow where
  tweet : String
  inappropriate : Bool
deriving DecidableEq, Repr

/-- One row of the `lemmas` DataFrame: columns `sm_lemmas`, `md_lemmas`,
`lg_lemmas`, `inappropriate`. -/
structure LemmaRow where
  sm_lemmas : List String
  md_lemmas : List String
  lg_lemmas : List String
  inappropriate : Bool
deriving DecidableEq, Repr

/-- One row of the `vectors` DataFrame: columns `sm_vectors`, `md_vectors`,
`lg_vectors`, `inappropriate`. -/
structure VectorRow where
  sm_vectors : List Int
  md_vectors : List Int
  lg_vectors : List Int
  inappropriate : Bool
deriving DecidableEq, Repr

/-- Align four equal-length columns into rows (pandas column assignment on
a shared index). -/
def zipWith4 {α β γ δ ε : Type} (f : α → β → γ → δ → ε) :
    List α → List β → List γ → List δ → List ε
  | a :: as, b :: bs, c :: cs, d :: ds => f a b c d :: zipWith4 f as bs cs ds
  | _, _, _, _ => []

/-- The `lemmas` DataFrame: one `make_lemmas` column per model variant over
the `tweet` column, plus the `inappropriate` column copied from the source
table. -/
def make_lemmas_frame (nlp_sm nlp_md nlp_lg : String → SpacyDoc)
    (training_data : List InputRow) : List LemmaRow :=
  zipWith4 LemmaRow.mk
    (make_lemmas nlp_sm (training_data.map InputRow.tweet))
    (make_lemmas nlp_md (training_data.map InputRow.tweet))
    (make_lemmas nlp_lg (training_data.map InputRow.tweet))
    (training_data.map InputRow.inappropriate)

/-- The `vectors` DataFrame: one `make_vectors` column per model variant
over the correspondingly-named column of the reloaded `lemmas` CSV, plus
the `inappropriate` column copied from the source table. -/
def make_vectors_frame (nlp_sm nlp_md nlp_lg : String → SpacyDoc)
    (lemmas : List LemmaRow) (training_data : List InputRow) : List VectorRow :=
  zipWith4 VectorRow.mk
    (make_vectors nlp_sm (lemmas.map (fun r => reload_cell r.sm_lemmas)))
    (make_vectors nlp_md (lemmas.map (fun r => reload_cell r.md_lemmas)))
    (make_vectors nlp_lg (lemmas.map (fun r => reload_cell r.lg_lemmas)))
    (training_data.map InputRow.inappropriate)

/-- Follows the spec's words: the same `vectors` DataFrame with the CSV
round-trip skipped — the lemma lists are kept in memory and only the
in-memory type coercion to a plain string is applied before vectorization. -/
def make_vectors_frame_in_memory (nlp_sm nlp_md nlp_lg : String → SpacyDoc)
    (lemmas : List LemmaRow) (training_data : List InputRow) : List VectorRow :=
  zipWith4 VectorRow.mk
    (make_vectors nlp_sm (lemmas.map (fun r => pyListStr r.sm_lemmas)))
    (make_vectors nlp_md (lemmas.map (fun r => pyListStr r.md_lemmas)))
    (make_vectors nlp_lg (lemmas.map (fun r => pyListStr r.lg_lemmas)))
    (training_data.map InputRow.inappropriate)

/-- The whole run's `vectors` DataFrame, starting from the source table. -/
def full_vectors_frame (nlp_sm nlp_md nlp_lg : String → SpacyDoc)
    (training_data : List InputRow) : List VectorRow :=
  make_vectors_frame nlp_sm nlp_md nlp_lg
    (make_lemmas_frame nlp_sm nlp_md nlp_lg training_data) training_data

/-- `vectors[['sm_vectors', 'inappropriate']]` — the exported small-model
vector table. -/
def export_sm (vectors : List VectorRow) : List (List Int × Bool) :=
  vectors.map (fun r => (r.sm_vectors, r.inappropriate))

/-- `vectors[['md_vectors', 'inappropriate']]` — the exported medium-model
vector table. -/
def export_md (vectors : List VectorRow) : List (List Int × Bool) :=
  vectors.map (fun r => (r.md_vectors, r.inappropriate))

/-- `vectors[['lg_vectors', 'inappropriate']]` — the exported large-model
vector table. -/
def export_lg (vectors : List VectorRow) : List (List Int × Bool) :=
  vectors.map (fun r => (r.lg_vectors, r.inappropriate))

/-! ## Round-trip and frame lemmas -/

theorem csv_escape_eq_nil_iff (l : List Char) : csv_escape l = [] ↔ l = [] := by
  cases l with
  | nil => simp [csv_escape]
  | cons c cs =>
      constructor
      · intro h
        by_cases hc : c = '"' <;> simp [csv_escape, hc] at h
      · intro h; cases h

theorem csv_unescape_escape (l : List Char) : csv_unescape (csv_escape l) = l := by
  induction l with
  | nil => rfl
  | cons c cs ih =>
      by_cases hc : c = '"'
      · subst hc
        simpa [csv_escape, csv_unescape] using ih
      · rw [csv_escape, if_neg hc]
        cases h : csv_escape cs with
        | nil =>
            have : cs = [] := (csv_escape_eq_nil_iff cs).mp h
            subst this
            rfl
        | cons d ds =>
            rw [csv_unescape, if_neg]
            · rw [← h, ih]
            · simp [hc]

theorem read_to_csv_roundtrip (s : String) :
    read_csv_field (to_csv_field s) = s := by
  by_cases hq : needs_quoting s
  · have h1 : to_csv_field s = String.mk ('"' :: (csv_escape s.data ++ ['"'])) := by
      rw [to_csv_field, if_pos hq]
    rw [h1]
    show String.mk (csv_unescape (csv_escape s.data ++ ['"']).dropLast) = s
    rw [List.dropLast_concat, csv_unescape_escape]
  · rw [to_csv_field, if_neg hq]
    rw [read_csv_field]
    split
    · rename_i rest heq
      exfalso
      apply hq
      rw [needs_quoting, heq]
      simp
    · rfl

theorem reload_cell_eq_pyListStr (cell : List String) :
    reload_cell cell = pyListStr cell :=
  read_to_csv_roundtrip (pyListStr cell)

theorem zipWith4_map {α β₁ β₂ β₃ β₄ ε : Type} (f : β₁ → β₂ → β₃ → β₄ → ε)
    (g1 : α → β₁) (g2 : α → β₂) (g3 : α → β₃) (g4 : α → β₄) :
    ∀ l : List α,
      zipWith4 f (l.map g1) (l.map g2) (l.map g3) (l.map g4) =
        l.map (fun x => f (g1 x) (g2 x) (g3 x) (g4 x))
  | [] => rfl
  | x :: xs => by
      simp only [List.map_cons, zipWith4]
      rw [zipWith4_map f g1 g2 g3 g4 xs]

/-- The row of the `lemmas` DataFrame produced for one input row. -/
def lemma_row_of (nlp_sm nlp_md nlp_lg : String → SpacyDoc) (r : InputRow) :
    LemmaRow :=
  { sm_lemmas := lemmas_of_doc (nlp_sm r.tweet).tokens
    md_lemmas := lemmas_of_doc (nlp_md r.tweet).tokens
    lg_lemmas := lemmas_of_doc (nlp_lg r.tweet).tokens
    inappropriate := r.inappropriate }

/-- The row of the `vectors` DataFrame produced for one input row: each
variant's vector comes from feeding that variant's reloaded lemma-list cell
back through the same variant's pipeline. -/
def vector_row_of (nlp_sm nlp_md nlp_lg : String → SpacyDoc) (r : InputRow) :
    VectorRow :=
  { sm_vectors := (nlp_sm (reload_cell (lemmas_of_doc (nlp_sm r.tweet).tokens))).vector
    md_vectors := (nlp_md (reload_cell (lemmas_of_doc (nlp_md r.tweet).tokens))).vector
    lg_vectors := (nlp_lg (reload_cell (lemmas_of_doc (nlp_lg r.tweet).tokens))).vector
    inappropriate := r.inappropriate }

theorem make_lemmas_frame_eq_map (nlp_sm nlp_md nlp_lg : String → SpacyDoc)
    (training_data : List InputRow) :
    make_lemmas_frame nlp_sm nlp_md nlp_lg training_data =
      training_data.map (lemma_row_of nlp_sm nlp_md nlp_lg) := by
  rw [make_lemmas_frame, make_lemmas_eq_map, make_lemmas_eq_map,
    make_lemmas_eq_map, List.map_map, List.map_map, List.map_map]
  exact zipWith4_map LemmaRow.mk _ _ _ _ training_data

theorem make_vectors_frame_eq_map (nlp_sm nlp_md nlp_lg : String → SpacyDoc)
    (lemmas : List LemmaRow) (training_data : List InputRow) :
    make_vectors_frame nlp_sm nlp_md nlp_lg lemmas training_data =
      zipWith4 VectorRow.mk
        (lemmas.map (fun r => (nlp_sm (reload_cell r.sm_lemmas)).vector))
        (lemmas.map (fun r => (nlp_md (reload_cell r.md_lemmas)).vector))
        (lemmas.map (fun r => (nlp_lg (reload_cell r.lg_lemmas)).vector))
        (training_data.map InputRow.inappropriate) := by
  rw [make_vectors_frame, make_vectors_eq_map, make_vectors_eq_map,
    make_vectors_eq_map, List.map_map, List.map_map, List.map_map]
  rfl

theorem full_vectors_frame_eq_map (nlp_sm nlp_md nlp_lg : String → SpacyDoc)
    (training_data : List InputRow) :
    full_vectors_frame nlp_sm nlp_md nlp_lg training_data =
      training_data.map (vector_row_of nlp_sm nlp_md nlp_lg) := by
  rw [full_vectors_frame, make_vectors_frame_eq_map,
    make_lemmas_frame_eq_map, List.map_map, List.map_map, List.map_map]
  exact zipWith4_map VectorRow.mk _ _ _ _ training_data

/-! ## Run timestamp and output filenames

`utc_now_formatted = datetime.utcnow().strftime(r'%Y-%m-%d-%H-%M-%SZ')` is
generated once, right after lemma extraction, and embedded in all four
output filenames. -/

/-- A UTC instant as `datetime.utcnow()` returns it: calendar fields down
to microseconds. -/
structure UTCTime where
  year : Nat
  month : Nat
  day : Nat
  hour : Nat
  minute : Nat
  second : Nat
  microsecond : Nat
deriving DecidableEq, Repr

/-- The decimal digit character for `d` (meaningful for `d < 10`). -/
def digitChar (d : Nat) : Char := Char.ofNat (48 + d)

/-- Two-digit zero-padded decimal (`%m`, `%d`, `%H`, `%M`, `%S`). -/
def pad2 (n : Nat) : List Char :=
  [digitChar (n / 10 % 10), digitChar (n % 10)]

/-- Four-digit zero-padded decimal (`%Y` for years below 10000). -/
def pad4 (n : Nat) : List Char :=
  [digitChar (n / 1000 % 10), digitChar (n / 100 % 10),
   digitChar (n / 10 % 10), digitChar (n % 10)]

/-- Modelled from the spec: `strftime(r'%Y-%m-%d-%H-%M-%SZ')` — the
formatted timestamp's characters.  Sub-second precision is dropped by the
format. -/
def utc_format_chars (t : UTCTime) : List Char :=
  pad4 t.year ++ '-' :: (pad2 t.month ++ '-' :: (pad2 t.day ++
    '-' :: (pad2 t.hour ++ '-' :: (pad2 t.minute ++ '-' :: (pad2 t.second ++ ['Z'])))))

/-- `utc_now_formatted` — the single per-run UTC timestamp string. -/
def utc_now_formatted (t : UTCTime) : String :=
  String.mk (utc_format_chars t)

/-- `lemmas_filename = f'data/lemmas_{utc_now_formatted}.csv'`. -/
def lemmas_filename (ts : String) : String :=
  "data/lemmas_" ++ ts ++ ".csv"

/-- `vectors_sm_filename = f'data/vectors_sm_{utc_now_formatted}.csv'`. -/
def vectors_sm_filename (ts : String) : String :=
  "data/vectors_sm_" ++ ts ++ ".csv"

/-- `vectors_md_filename = f'data/vectors_md_{utc_now_formatted}.csv'`. -/
def vectors_md_filename (ts : String) : String :=
  "data/vectors_md_" ++ ts ++ ".csv"

/-- `vectors_lg_filename = f'data/vectors_lg_{utc_now_formatted}.csv'`. -/
def vectors_lg_filename (ts : String) : String :=
  "data/vectors_lg_" ++ ts ++ ".csv"

/-- All four filenames a run generated at instant `t` emits; each one uses
the run's single formatted timestamp. -/
def run_filenames (t : UTCTime) : List String :=
  [lemmas_filename (utc_now_formatted t),
   vectors_sm_filename (utc_now_formatted t),
   vectors_md_filename (utc_now_formatted t),
   vectors_lg_filename (utc_now_formatted t)]

/-- The instant truncated to whole seconds — the precision the timestamp
format keeps. -/
def truncate_to_second (t : UTCTime) : UTCTime :=
  { t with microsecond := 0 }

/-- The calendar fields fit the fixed-width format (`%Y` four digits, the
rest two digits). -/
def UTCTime.fieldsInRange (t : UTCTime) : Prop :=
  t.year < 10000 ∧ t.month < 100 ∧ t.day < 100 ∧ t.hour < 100 ∧
    t.minute < 100 ∧ t.second < 100

instance (t : UTCTime) : Decidable t.fieldsInRange := by
  unfold UTCTime.fieldsInRange
  infer_instance

theorem digitChar_inj_bounded :
    ∀ d, d < 10 → ∀ e, e < 10 → digitChar d = digitChar e → d = e := by
  decide

theorem digitChar_injOn (d e : Nat) (hd : d < 10) (he : e < 10)
    (h : digitChar d = digitChar e) : d = e :=
  digitChar_inj_bounded d hd e he h

theorem utc_format_inj (t1 t2 : UTCTime) (h1 : t1.fieldsInRange)
    (h2 : t2.fieldsInRange) (h : utc_now_formatted t1 = utc_now_formatted t2) :
    truncate_to_second t1 = truncate_to_second t2 := by
  obtain ⟨hy1, hmo1, hd1, hh1, hmi1, hs1⟩ := h1
  obtain ⟨hy2, hmo2, hd2, hh2, hmi2, hs2⟩ := h2
  have hdata : utc_format_chars t1 = utc_format_chars t2 := by
    have := congrArg String.data h
    simpa [utc_now_formatted] using this
  simp only [utc_format_chars, pad4, pad2, List.cons_append, List.nil_append,
    List.cons.injEq, and_true, true_and] at hdata
  obtain ⟨y3, y2e, y1e, y0e, mo1e, mo0e, d1e, d0e, hh1e, hh0e, mi1e, mi0e,
    s1e, s0e⟩ := hdata
  have hy : t1.year = t2.year := by
    have e3 := digitChar_injOn _ _ (Nat.mod_lt _ (by omega)) (Nat.mod_lt _ (by omega)) y3
    have e2 := digitChar_injOn _ _ (Nat.mod_lt _ (by omega)) (Nat.mod_lt _ (by omega)) y2e
    have e1 := digitChar_injOn _ _ (Nat.mod_lt _ (by omega)) (Nat.mod_lt _ (by omega)) y1e
    have e0 := digitChar_injOn _ _ (Nat.mod_lt _ (by omega)) (Nat.mod_lt _ (by omega)) y0e
    omega
  have hmo : t1.month = t2.month := by
    have e1 := digitChar_injOn _ _ (Nat.mod_lt _ (by omega)) (Nat.mod_lt _ (by omega)) mo1e
    have e0 := digitChar_injOn _ _ (Nat.mod_lt _ (by omega)) (Nat.mod_lt _ (by omega)) mo0e
    omega
  have hd : t1.day = t2.day := by
    have e1 := digitChar_injOn _ _ (Nat.mod_lt _ (by omega)) (Nat.mod_lt _ (by omega)) d1e
    have e0 := digitChar_injOn _ _ (Nat.mod_lt _ (by omega)) (Nat.mod_lt _ (by omega)) d0e
    omega
  have hh : t1.hour = t2.hour := by
    have e1 := digitChar_injOn _ _ (Nat.mod_lt _ (by omega)) (Nat.mod_lt _ (by omega)) hh1e
    have e0 := digitChar_injOn _ _ (Nat.mod_lt _ (by omega)) (Nat.mod_lt _ (by omega)) hh0e
    omega
  have hmi : t1.minute = t2.minute := by
    have e1 := digitChar_injOn _ _ (Nat.mod_lt _ (by omega)) (Nat.mod_lt _ (by omega)) mi1e
    have e0 := digitChar_injOn _ _ (Nat.mod_lt _ (by omega)) (Nat.mod_lt _ (by omega)) mi0e
    omega
  have hs : t1.second = t2.second := by
    have e1 := digitChar_injOn _ _ (Nat.mod_lt _ (by omega)) (Nat.mod_lt _ (by omega)) s1e
    have e0 := digitChar_injOn _ _ (Nat.mod_lt _ (by omega)) (Nat.mod_lt _ (by omega)) s0e
    omega
  simp [truncate_to_second, UTCTime.mk.injEq, hy, hmo, hd, hh, hmi, hs]

theorem filename_data_getElem (pre ts suf : String) (i : Nat)
    (hi : i < pre.data.length) :
    (pre ++ ts ++ suf).data[i]? = pre.data[i]? := by
  have h1 : i < (pre.data ++ ts.data).length := by
    rw [List.length_append]; omega
  simp only [String.data_append]
  rw [List.getElem?_append_left h1, List.getElem?_append_left hi]

theorem kinds_ne (pre1 pre2 ts1 ts2 : String) (i : Nat) (c1 c2 : Char)
    (hi1 : i < pre1.data.length) (hi2 : i < pre2.data.length)
    (g1 : pre1.data[i]? = some c1) (g2 : pre2.data[i]? = some c2)
    (hcc : c1 ≠ c2) :
    pre1 ++ ts1 ++ ".csv" ≠ pre2 ++ ts2 ++ ".csv" := by
  intro h
  have e1 := filename_data_getElem pre1 ts1 ".csv" i hi1
  have e2 := filename_data_getElem pre2 ts2 ".csv" i hi2
  rw [h, e2, g2] at e1
  rw [g1] at e1
  exact hcc (Option.some.inj e1.symm)

theorem same_kind_inj (pre ts1 ts2 suf : String)
    (h : pre ++ ts1 ++ suf = pre ++ ts2 ++ suf) : ts1 = ts2 := by
  have hd := congrArg String.data h
  simp only [String.data_append] at hd
  exact String.ext (List.append_cancel_left (List.append_cancel_right hd))

/-! ## The claims -/

/-- C1: a token's lemma is included in the document's lemma list if and
only if the token is not a stop word, not punctuation, its coarse POS tag
is not `PRON`, its surface text is not empty or all-whitespace, its lemma
has length strictly greater than 2, and its lemma is not in the configured
additional stop-list (empty by default): the lemma list is exactly the
lemmas, in order, of the tokens satisfying that conjunction. -/
theorem token_filter_characterization :
    STOP_WORDS = ([] : List String) ∧
    (∀ (stop_words : List String) (t : Token),
      keep_token stop_words t = true ↔
        (t.is_stop = false ∧ t.is_punct = false ∧ t.pos_ ≠ "PRON" ∧
          ¬(t.text = "" ∨ ∀ c ∈ t.text.data, c.isWhitespace = true) ∧
          t.lemma_.length > 2 ∧ t.lemma_ ∉ stop_words)) ∧
    (∀ tokens : List Token,
      lemmas_of_doc tokens =
        (tokens.filter (keep_token STOP_WORDS)).map Token.lemma_) := by
  refine ⟨rfl, ?_, lemmas_of_doc_eq_filter_map⟩
  intro stop_words t
  have hcont : (!stop_words.contains t.lemma_) = true ↔ t.lemma_ ∉ stop_words := by
    rw [Bool.not_eq_true', ← Bool.not_eq_true]
    exact not_congr List.elem_iff
  have hws : (!is_empty_match t.text) = true ↔
      ¬(t.text = "" ∨ ∀ c ∈ t.text.data, c.isWhitespace = true) := by
    rw [Bool.not_eq_true', is_empty_match, ← Bool.not_eq_true, List.all_eq_true]
    constructor
    · intro h
      rintro (he | hall)
      · exact h (fun c hc => by rw [he] at hc; cases hc)
      · exact h hall
    · intro h hall
      exact h (Or.inr hall)
  simp only [keep_token, Bool.and_eq_true, Bool.not_eq_true', bne_iff_ne, ne_eq,
    decide_eq_true_eq, hcont, hws]
  tauto

/-- C5: the filtered lemma list of a document is an order-preserving
subsequence of the sequence of lemmas of the document's raw tokens (no
deduplication, no insertion); in particular its length is at most the
number of raw tokens. -/
theorem lemma_list_is_subsequence (tokens : List Token) :
    List.Sublist (lemmas_of_doc tokens) (tokens.map Token.lemma_) ∧
    (lemmas_of_doc tokens).length ≤ tokens.length := by
  have hsub : List.Sublist (lemmas_of_doc tokens) (tokens.map Token.lemma_) := by
    rw [lemmas_of_doc_eq_filter_map]
    exact (List.filter_sublist tokens).map Token.lemma_
  refine ⟨hsub, ?_⟩
  have h := hsub.length_le
  rwa [List.length_map] at h

/-- C6: the token filter is idempotent — filtering the already-filtered
token list changes nothing, every retained token still satisfies the
predicate, and the lemma list of the retained tokens is the lemma list of
the original document. -/
theorem token_filter_idempotent (stop_words : List String) (tokens : List Token) :
    (tokens.filter (keep_token stop_words)).filter (keep_token stop_words) =
      tokens.filter (keep_token stop_words) ∧
    (tokens.filter (keep_token stop_words)).all (keep_token stop_words) = true ∧
    lemmas_of_doc (tokens.filter (keep_token STOP_WORDS)) = lemmas_of_doc tokens := by
  refine ⟨by simp [List.filter_filter], ?_, ?_⟩
  · rw [List.all_eq_true]
    intro t ht
    exact (List.mem_filter.mp ht).2
  · rw [lemmas_of_doc_eq_filter_map, lemmas_of_doc_eq_filter_map,
      List.filter_filter]
    simp

/-- C8: batch size 500 is purely a tuning parameter — batched pipeline
application equals unbatched per-document application, so the output
sequence of `make_lemmas` and `make_vectors` has exactly the input's
length and order. -/
theorem batching_is_transparent (nlp : String → SpacyDoc) (docs : List String) :
    nlp_pipe nlp 500 docs = unbatched_pipe nlp docs ∧
    (nlp_pipe nlp 500 docs).length = docs.length ∧
    make_lemmas nlp docs = docs.map (fun s => lemmas_of_doc (nlp s).tokens) ∧
    make_vectors nlp docs = docs.map (fun s => (nlp s).vector) := by
  refine ⟨nlp_pipe_eq_map nlp docs, ?_, make_lemmas_eq_map nlp docs,
    make_vectors_eq_map nlp docs⟩
  rw [nlp_pipe_eq_map, List.length_map]

/-- C2: every output table — the lemma table and the vector table with its
three exported variants — has exactly the input table's row count, and for
every index `i` output row `i` is the row computed from input document
`i`. -/
theorem output_tables_align_with_input (nlp_sm nlp_md nlp_lg : String → SpacyDoc)
    (training_data : List InputRow) :
    (make_lemmas_frame nlp_sm nlp_md nlp_lg training_data).length =
      training_data.length ∧
    (full_vectors_frame nlp_sm nlp_md nlp_lg training_data).length =
      training_data.length ∧
    (export_sm (full_vectors_frame nlp_sm nlp_md nlp_lg training_data)).length =
      training_data.length ∧
    (export_md (full_vectors_frame nlp_sm nlp_md nlp_lg training_data)).length =
      training_data.length ∧
    (export_lg (full_vectors_frame nlp_sm nlp_md nlp_lg training_data)).length =
      training_data.length ∧
    (∀ i : Nat,
      (make_lemmas_frame nlp_sm nlp_md nlp_lg training_data)[i]? =
        (training_data[i]?).map (lemma_row_of nlp_sm nlp_md nlp_lg)) ∧
    (∀ i : Nat,
      (full_vectors_frame nlp_sm nlp_md nlp_lg training_data)[i]? =
        (training_data[i]?).map (vector_row_of nlp_sm nlp_md nlp_lg)) := by
  rw [make_lemmas_frame_eq_map, full_vectors_frame_eq_map]
  simp [export_sm, export_md, export_lg]

/-- C9: every exported table carries the boolean `inappropriate` label
column copied unchanged from the source table, in source row order, and
each export is a pure projection — the vector columns appear in the
exported tables exactly as they stand in the vectors table. -/
theorem label_column_passthrough (nlp_sm nlp_md nlp_lg : String → SpacyDoc)
    (training_data : List InputRow) :
    (make_lemmas_frame nlp_sm nlp_md nlp_lg training_data).map
        LemmaRow.inappropriate = training_data.map InputRow.inappropriate ∧
    (full_vectors_frame nlp_sm nlp_md nlp_lg training_data).map
        VectorRow.inappropriate = training_data.map InputRow.inappropriate ∧
    (export_sm (full_vectors_frame nlp_sm nlp_md nlp_lg training_data)).map
        Prod.fst =
      (full_vectors_frame nlp_sm nlp_md nlp_lg training_data).map
        VectorRow.sm_vectors ∧
    (export_sm (full_vectors_frame nlp_sm nlp_md nlp_lg training_data)).map
        Prod.snd = training_data.map InputRow.inappropriate ∧
    (export_md (full_vectors_frame nlp_sm nlp_md nlp_lg training_data)).map
        Prod.fst =
      (full_vectors_frame nlp_sm nlp_md nlp_lg training_data).map
        VectorRow.md_vectors ∧
    (export_md (full_vectors_frame nlp_sm nlp_md nlp_lg training_data)).map
        Prod.snd = training_data.map InputRow.inappropriate ∧
    (export_lg (full_vectors_frame nlp_sm nlp_md nlp_lg training_data)).map
        Prod.fst =
      (full_vectors_frame nlp_sm nlp_md nlp_lg training_data).map
        VectorRow.lg_vectors ∧
    (export_lg (full_vectors_frame nlp_sm nlp_md nlp_lg training_data)).map
        Prod.snd = training_data.map InputRow.inappropriate := by
  rw [make_lemmas_frame_eq_map, full_vectors_frame_eq_map]
  simp [export_sm, export_md, export_lg, List.map_map, Function.comp_def,
    lemma_row_of, vector_row_of]

/-- C10: in this notebook each document vector is computed by feeding the
serialized (CSV round-tripped) string form of that row's lemma list for
the same model variant back through that variant's pipeline — not the raw
document text. -/
theorem vectors_computed_from_serialized_lemmas
    (nlp_sm nlp_md nlp_lg : String → SpacyDoc) (training_data : List InputRow) :
    ∀ i : Nat,
      ((full_vectors_frame nlp_sm nlp_md nlp_lg training_data)[i]?).map
          VectorRow.sm_vectors =
        ((make_lemmas_frame nlp_sm nlp_md nlp_lg training_data)[i]?).map
          (fun r => (nlp_sm (pyListStr r.sm_lemmas)).vector) ∧
      ((full_vectors_frame nlp_sm nlp_md nlp_lg training_data)[i]?).map
          VectorRow.md_vectors =
        ((make_lemmas_frame nlp_sm nlp_md nlp_lg training_data)[i]?).map
          (fun r => (nlp_md (pyListStr r.md_lemmas)).vector) ∧
      ((full_vectors_frame nlp_sm nlp_md nlp_lg training_data)[i]?).map
          VectorRow.lg_vectors =
        ((make_lemmas_frame nlp_sm nlp_md nlp_lg training_data)[i]?).map
          (fun r => (nlp_lg (pyListStr r.lg_lemmas)).vector) := by
  intro i
  rw [make_lemmas_frame_eq_map, full_vectors_frame_eq_map]
  simp [Option.map_map, Function.comp_def, lemma_row_of, vector_row_of,
    reload_cell_eq_pyListStr]

/-- C4: the CSV round-trip between lemma extraction and vectorization only
coerces the lemma lists to their string form and transforms nothing — the
field written is read back verbatim, the reloaded cell is exactly the
in-memory serialization of the lemma list, and the vectors table equals
the one computed with the file round-trip skipped entirely. -/
theorem csv_roundtrip_only_coerces (nlp_sm nlp_md nlp_lg : String → SpacyDoc)
    (lemmas : List LemmaRow) (training_data : List InputRow) :
    (∀ s : String, read_csv_field (to_csv_field s) = s) ∧
    (∀ cell : List String, reload_cell cell = pyListStr cell) ∧
    make_vectors_frame nlp_sm nlp_md nlp_lg lemmas training_data =
      make_vectors_frame_in_memory nlp_sm nlp_md nlp_lg lemmas training_data := by
  refine ⟨read_to_csv_roundtrip, reload_cell_eq_pyListStr, ?_⟩
  rw [make_vectors_frame, make_vectors_frame_in_memory]
  simp [reload_cell_eq_pyListStr]

/-- C7: a document whose every token the filter rejects yields the empty
lemma list as a valid output, and vector extraction still produces a
vector row for every document — one per input, the rejected-token document
included. -/
theorem fully_filtered_document_still_has_rows (nlp : String → SpacyDoc)
    (s : String) (docs : List String)
    (h : (nlp s).tokens.all (fun t => !keep_token STOP_WORDS t) = true) :
    lemmas_of_doc (nlp s).tokens = [] ∧
    make_lemmas nlp [s] = [[]] ∧
    (make_vectors nlp docs).length = docs.length ∧
    make_vectors nlp [s] = [(nlp s).vector] := by
  have hnil : lemmas_of_doc (nlp s).tokens = [] := by
    rw [lemmas_of_doc_eq_filter_map]
    have hfil : (nlp s).tokens.filter (keep_token STOP_WORDS) = [] := by
      rw [List.filter_eq_nil_iff]
      intro t ht
      have ha := List.all_eq_true.mp h t ht
      simp only [Bool.not_eq_true'] at ha
      simp [ha]
    rw [hfil]
    rfl
  refine ⟨hnil, ?_, ?_, ?_⟩
  · rw [make_lemmas_eq_map]
    simp [hnil]
  · rw [make_vectors_eq_map, List.length_map]
  · rw [make_vectors_eq_map]
    rfl

/-- C7 witness: a concrete pipeline sending every text to the single
pronoun stop-word token "I" — the lemma list is empty and the vector row
is still produced. -/
theorem fully_filtered_document_still_has_rows_witness :
    lemmas_of_doc ((fun _ : String =>
        SpacyDoc.mk [Token.mk "I" "I" true false "PRON"] [1, 2]) "I it").tokens = [] ∧
    make_lemmas (fun _ : String =>
        SpacyDoc.mk [Token.mk "I" "I" true false "PRON"] [1, 2]) ["I it"] = [[]] ∧
    (make_vectors (fun _ : String =>
        SpacyDoc.mk [Token.mk "I" "I" true false "PRON"] [1, 2]) ["I it"]).length =
      (["I it"] : List String).length ∧
    make_vectors (fun _ : String =>
        SpacyDoc.mk [Token.mk "I" "I" true false "PRON"] [1, 2]) ["I it"] =
      [((fun _ : String =>
        SpacyDoc.mk [Token.mk "I" "I" true false "PRON"] [1, 2]) "I it").vector] :=
  fully_filtered_document_still_has_rows
    (fun _ : String => SpacyDoc.mk [Token.mk "I" "I" true false "PRON"] [1, 2])
    "I it" ["I it"] (by decide)

/-- C3 (amended): the run's single formatted UTC timestamp is embedded in
all four output filenames, and two runs whose generation instants differ
at whole-second resolution (the precision the format keeps) produce files
that never share a name; runs differing only below one second are not
distinguished by the format. -/
theorem distinct_second_timestamps_never_collide (t1 t2 : UTCTime)
    (h1 : t1.fieldsInRange) (h2 : t2.fieldsInRange)
    (hne : truncate_to_second t1 ≠ truncate_to_second t2) :
    (∀ f ∈ run_filenames t1, List.IsInfix (utc_now_formatted t1).data f.data) ∧
    (∀ f1 ∈ run_filenames t1, ∀ f2 ∈ run_filenames t2, f1 ≠ f2) := by
  constructor
  · intro f hf
    simp only [run_filenames, List.mem_cons, List.mem_singleton,
      List.not_mem_nil, or_false] at hf
    rcases hf with rfl | rfl | rfl | rfl
    · exact ⟨"data/lemmas_".data, ".csv".data,
        by simp [lemmas_filename, String.data_append]⟩
    · exact ⟨"data/vectors_sm_".data, ".csv".data,
        by simp [vectors_sm_filename, String.data_append]⟩
    · exact ⟨"data/vectors_md_".data, ".csv".data,
        by simp [vectors_md_filename, String.data_append]⟩
    · exact ⟨"data/vectors_lg_".data, ".csv".data,
        by simp [vectors_lg_filename, String.data_append]⟩
  · intro f1 hf1 f2 hf2
    have hts : utc_now_formatted t1 ≠ utc_now_formatted t2 := fun he =>
      hne (utc_format_inj t1 t2 h1 h2 he)
    simp only [run_filenames, List.mem_cons, List.mem_singleton,
      List.not_mem_nil, or_false] at hf1 hf2
    rcases hf1 with rfl | rfl | rfl | rfl <;> rcases hf2 with rfl | rfl | rfl | rfl <;>
      simp only [lemmas_filename, vectors_sm_filename, vectors_md_filename,
        vectors_lg_filename] <;>
      first
        | exact fun he => hts (same_kind_inj _ _ _ _ he)
        | exact kinds_ne _ _ _ _ 5 'l' 'v' (by decide) (by decide) (by decide)
            (by decide) (by decide)
        | exact kinds_ne _ _ _ _ 5 'v' 'l' (by decide) (by decide) (by decide)
            (by decide) (by decide)
        | exact kinds_ne _ _ _ _ 13 's' 'm' (by decide) (by decide) (by decide)
            (by decide) (by decide)
        | exact kinds_ne _ _ _ _ 13 'm' 's' (by decide) (by decide) (by decide)
            (by decide) (by decide)
        | exact kinds_ne _ _ _ _ 13 's' 'l' (by decide) (by decide) (by decide)
            (by decide) (by decide)
        | exact kinds_ne _ _ _ _ 13 'l' 's' (by decide) (by decide) (by decide)
            (by decide) (by decide)
        | exact kinds_ne _ _ _ _ 13 'm' 'l' (by decide) (by decide) (by decide)
            (by decide) (by decide)
        | exact kinds_ne _ _ _ _ 13 'l' 'm' (by decide) (by decide) (by decide)
            (by decide) (by decide)

/-- C3 witness: two runs one second apart have distinct lemma-table
filenames, obtained from the amended theorem at concrete instants. -/
theorem distinct_second_timestamps_never_collide_witness :
    lemmas_filename (utc_now_formatted (UTCTime.mk 2020 4 30 18 10 45 0)) ≠
      lemmas_filename (utc_now_formatted (UTCTime.mk 2020 4 30 18 10 46 0)) :=
  (distinct_second_timestamps_never_collide
      (UTCTime.mk 2020 4 30 18 10 45 0) (UTCTime.mk 2020 4 30 18 10 46 0)
      (by decide) (by decide) (by decide)).2
    _ (by simp [run_filenames]) _ (by simp [run_filenames])

/-- C3 counterexample: two runs at genuinely different instants — equal
except below one second — format to the same timestamp string and emit
exactly the same four filenames, so runs executed at different times can
share names and overwrite each other. -/
theorem subsecond_runs_share_filenames :
    UTCTime.mk 2020 4 30 18 10 45 0 ≠ UTCTime.mk 2020 4 30 18 10 45 999999 ∧
    utc_now_formatted (UTCTime.mk 2020 4 30 18 10 45 0) =
      utc_now_formatted (UTCTime.mk 2020 4 30 18 10 45 999999) ∧
    run_filenames (UTCTime.mk 2020 4 30 18 10 45 0) =
      run_filenames (UTCTime.mk 2020 4 30 18 10 45 999999) :=
  ⟨by decide, rfl, rfl⟩

end Data2Lemma2Vec
